import Mathlib

/-!
Verification development for the GreenScheduling sustainability scoring engine.

The Go sources are embedded shallowly:
  * `float64` values are modelled as real numbers (`ℝ`);
  * `time.Time` is modelled as a real number of hours, so that
    `t1.Sub(t2).Hours()` becomes `t1 - t2`;
  * Go `int64` is modelled as `Int` (no claim here exercises 64-bit overflow),
    and Go's truncating integer division is `Int.tdiv`; an integer division by
    zero, which panics at runtime in Go, is modelled by returning `none`;
  * a Go `interface{}` value that in this code base is either a string or a
    string slice is modelled by the inductive `GoValue`; the unchecked type
    assertion `.([]string)`, which panics on any other dynamic type, is
    modelled by returning `none`;
  * the HTTP exchange of the token manager is modelled by an explicit
    `HttpOutcome` oracle argument, and the in-place mutation of the manager
    by explicit state passing.
-/

namespace Gks

/-! ## sustainabilityscore package (sustainabilityscore.go, sustainabilityprofile) -/

/-- Time instants, as a real number of hours (`time.Time`). -/
abbrev Time := ℝ

/-- Go `EmissionDataPoint` holds data for a single CO₂ emission entry. -/
structure EmissionDataPoint where
  co2 : ℝ
  time : Time

/-- Go `DecayParameters` holds the parameters needed for decay calculations. -/
structure DecayParameters where
  latestTime : Time
  decayRate : ℝ

/-- Constructor `NewDecayParameters` creates a new instance of `DecayParameters`. -/
def NewDecayParameters (latestTime : Time) (decayRate : ℝ) : DecayParameters :=
  ⟨latestTime, decayRate⟩

/-- Function `CalculateDecayFactor`: the decay factor for an emission data point.
`timeDifference` is `params.LatestTime.Sub(e.Time).Hours()`; for a
non-negative time difference the factor is
`exp(-rate·Δ) / (1 + exp(-rate·Δ))`, otherwise the defensive default `1.0`. -/
noncomputable def CalculateDecayFactor (e : EmissionDataPoint)
    (params : DecayParameters) : ℝ :=
  let timeDifference := params.latestTime - e.time
  if 0 ≤ timeDifference then
    Real.exp (-params.decayRate * timeDifference) /
      (1 + Real.exp (-params.decayRate * timeDifference))
  else
    1.0

/-- Go `SustainabilityWeights` holds the weights for the score components. -/
structure SustainabilityWeights where
  co2DecayWeight : ℝ
  totalCO2Weight : ℝ
  costWeight : ℝ
  decayRate : ℝ

/-- Constructor `NewSustainabilityWeights` creates a new instance of `SustainabilityWeights`. -/
def NewSustainabilityWeights (co2DecayWeight totalCO2Weight costWeight decayRate : ℝ) :
    SustainabilityWeights :=
  ⟨co2DecayWeight, totalCO2Weight, costWeight, decayRate⟩

/-- Go `SustainabilityProfile` holds emission data points, total CO₂ and total cost. -/
structure SustainabilityProfile where
  emissions : List EmissionDataPoint
  totalCo2 : ℝ
  totalCost : ℝ

/-- Function `calculateCO2WeightedScore`: returns `0` for an empty emissions list;
otherwise scans for the latest timestamp (`emission.Time.After(latestTime)`)
and accumulates `decayFactor * emission.Co2`, scaled by `co2Weight`. -/
noncomputable def calculateCO2WeightedScore (data : SustainabilityProfile)
    (co2Weight decayRate : ℝ) : ℝ :=
  match data.emissions with
  | [] => 0
  | e0 :: rest =>
    let latestTime := (e0 :: rest).foldl
      (fun acc em => if acc < em.time then em.time else acc) e0.time
    co2Weight * ((e0 :: rest).foldl
      (fun acc em =>
        acc + CalculateDecayFactor em (NewDecayParameters latestTime decayRate) * em.co2)
      0)

/-- Function `calculateTotalCO2WeightedScore`: `totalCO2Weight * data.TotalCo2`. -/
noncomputable def calculateTotalCO2WeightedScore (data : SustainabilityProfile)
    (totalCO2Weight : ℝ) : ℝ :=
  totalCO2Weight * data.totalCo2

/-- Function `calculateCostWeightedScore`: `costWeight / (1 + data.TotalCost)`. -/
noncomputable def calculateCostWeightedScore (data : SustainabilityProfile)
    (costWeight : ℝ) : ℝ :=
  costWeight / (1 + data.totalCost)

/-- Function `CalculateScore`: the sum of the three weighted component scores. -/
noncomputable def CalculateScore (data : SustainabilityProfile)
    (weights : SustainabilityWeights) : ℝ :=
  calculateCO2WeightedScore data weights.co2DecayWeight weights.decayRate +
    calculateTotalCO2WeightedScore data weights.totalCO2Weight +
    calculateCostWeightedScore data weights.costWeight

/-! Specification-side companions for the scoring formula (stated with the
mathematical `max` and `List.sum` rather than the code's fold loops). -/

/-- The reference time of a profile: the maximum timestamp across all data
points (the spec's `referenceTime`); `0` for an empty sequence. -/
noncomputable def referenceTime (emissions : List EmissionDataPoint) : Time :=
  match emissions with
  | [] => 0
  | e0 :: rest => rest.foldl (fun acc em => max acc em.time) e0.time

/-- The spec's `decayedSum`: the sum over all emission points of
`decayFactor_i · co2_i`, with decay factors taken against the reference time. -/
noncomputable def decayedSum (data : SustainabilityProfile) (decayRate : ℝ) : ℝ :=
  (data.emissions.map
    (fun em =>
      CalculateDecayFactor em
        (NewDecayParameters (referenceTime data.emissions) decayRate) * em.co2)).sum

/-! ## sicresponse package (usageentity.go) -/

/-- Go `UsageEntity`: the telemetry fields the scoring path reads; the nullable
JSON numbers `CostUsd` and `Co2eMetricTon` are `Option ℝ`. -/
structure UsageEntity where
  costUsd : Option ℝ
  co2eMetricTon : Option ℝ

/-- Method `GetCostUsd` returns the `CostUsd` value, or `0` if it is nil. -/
noncomputable def UsageEntity.GetCostUsd (e : UsageEntity) : ℝ :=
  match e.costUsd with
  | none => 0
  | some v => v

/-- Method `GetCo2eMetricTon` returns the `Co2eMetricTon` value, or `0` if it is nil. -/
noncomputable def UsageEntity.GetCo2eMetricTon (e : UsageEntity) : ℝ :=
  match e.co2eMetricTon with
  | none => 0
  | some v => v

/-- Go `UsageByEntityResponse`: the aggregate usage-by-entity response. -/
structure UsageByEntityResponse where
  items : List UsageEntity

/-! ## greenscheduling plugin (greenscheduling.go) -/

/-- Constant `framework.MaxNodeScore`, the host orchestrator's fixed score ceiling.
Modelled from the spec: the scheduler framework is an external collaborator
and its constant is `MAX = 100`. -/
def MaxNodeScore : Int := 100

/-- One entry of `framework.NodeScoreList`. -/
structure NodeScore where
  name : String
  score : Int
  deriving DecidableEq, Repr

/-- Method `NormalizeScore`: finds the largest score in the batch (starting the
scan from `0`) and rescales each entry in place to
`node.Score * framework.MaxNodeScore / higherScore` with Go's truncating
`int64` division.  When the batch is non-empty and `higherScore` is `0`,
the division is an integer division by zero — a Go runtime panic — which
the embedding reports as `none`. -/
def normalizeScore (scores : List NodeScore) : Option (List NodeScore) :=
  let higherScore := scores.foldl
    (fun acc node => if acc < node.score then node.score else acc) 0
  if scores ≠ [] ∧ higherScore = 0 then
    none
  else
    some (scores.map
      (fun node => { node with score := (node.score * MaxNodeScore).tdiv higherScore }))

/-- Method `calculateSustainabilityScore`: returns `0.0` when the usage-by-entity
response has no items; otherwise builds the profile from the first item's
totals and the emission data points, and calls `CalculateScore` with the
configured weights. -/
noncomputable def calculateSustainabilityScore (usageByEntity : UsageByEntityResponse)
    (dataPoints : List EmissionDataPoint) (weights : SustainabilityWeights) : ℝ :=
  match usageByEntity.items with
  | [] => 0
  | item :: _ =>
    CalculateScore
      { emissions := dataPoints
        totalCo2 := item.GetCo2eMetricTon
        totalCost := item.GetCostUsd }
      weights

/-! ## sicparams package (filter.go)

`FilterKey` and `FilterOperator` are Go string types, so they are embedded
as `String` together with the named constants. -/

def EntityID : String := "entityId"

def EntityMake : String := "entityMake"

def EntityModel : String := "entityModel"

def EntityType : String := "entityType"

def EntitySerialNum : String := "entitySerialNum"

def EntityProductID : String := "entityProductId"

def LocationName : String := "locationName"

def LocationID : String := "locationId"

def LocationCity : String := "locationCity"

def LocationState : String := "locationState"

def LocationCountry : String := "locationCountry"

def NameKey : String := "name"

def Equals : String := "eq"

def Contains : String := "contains"

def InOp : String := "in"

/-- A Go `interface{}` value as it occurs in this code base: either a
string or a slice of strings.  (`NewFilter` accepts any dynamic type;
these two constructors cover every value the claims exercise, and `str`
already witnesses "a type other than a string slice".) -/
inductive GoValue where
  | str (s : String)
  | strList (vs : List String)
  deriving DecidableEq, Repr

/-- Verb `%v` of Go `fmt` for the embedded dynamic values: a string
prints as itself, a string slice as its space-separated bracketed form. -/
def goFormatValue : GoValue → String
  | GoValue.str s => s
  | GoValue.strList vs => "[" ++ String.intercalate " " vs ++ "]"

/-- Go `Filter` represents a single filter condition. -/
structure Filter where
  key : String
  operator : String
  value : GoValue
  deriving DecidableEq, Repr

/-- Predicate `isValidKey` checks if the filter key is valid. -/
def isValidKey (key : String) : Bool :=
  key == EntityID || key == EntityMake || key == EntityModel || key == EntityType ||
    key == EntitySerialNum || key == EntityProductID || key == LocationName ||
    key == LocationID || key == LocationCity || key == LocationState ||
    key == LocationCountry || key == NameKey

/-- Predicate `isValidOperator` checks if the filter operator is valid. -/
def isValidOperator (operator : String) : Bool :=
  operator == Equals || operator == Contains || operator == InOp

/-- Constructor `NewFilter` creates a new `Filter` instance; an invalid key or operator
is a construction error (`none`).  The value is not validated. -/
def NewFilter (key operator : String) (value : GoValue) : Option Filter :=
  if ¬ isValidKey key then none
  else if ¬ isValidOperator operator then none
  else some ⟨key, operator, value⟩

/-- Function `strings.Join(values, sep)`. -/
def joinSep (sep : String) : List String → String
  | [] => ""
  | [v] => v
  | v :: vs => v ++ sep ++ joinSep sep vs

/-- Function `formatInValues` overwrites each slice member with its single-quoted
form and joins the result with `", "`; the first component is the mutated
slice, the second the joined string. -/
def formatInValues (values : List String) : List String × String :=
  let quoted := values.map (fun v => "'" ++ v ++ "'")
  (quoted, joinSep ", " quoted)

/-- Method `Filter.GetValue` returns the textual form of the filter together with
the filter as it stands after the call (the `in` branch mutates the stored
slice in place).  The unchecked type assertion `f.Value.([]string)` in the
`in` branch panics when the value is not a string slice; the embedding
reports that as `none`. -/
def Filter.GetValue (f : Filter) : Option (String × Filter) :=
  if f.operator = InOp then
    match f.value with
    | GoValue.strList vs =>
      let fv := formatInValues vs
      some (f.key ++ " in (" ++ fv.2 ++ ")", { f with value := GoValue.strList fv.1 })
    | _ => none
  else if f.operator = Contains then
    some ("contains(" ++ f.key ++ ", '" ++ goFormatValue f.value ++ "')", f)
  else
    some (f.key ++ " " ++ f.operator ++ " '" ++ goFormatValue f.value ++ "'", f)

/-! ## sicclient token manager (token.go)

Wall-clock time is an `Int` (seconds); the zero value of `time.Time` is `0`.
The HTTP exchange of `GenerateToken` is an oracle argument. -/

/-- Go `TokenResponse`: the decoded body of a successful token endpoint reply. -/
structure TokenResponse where
  accessToken : String
  tokenType : String
  expiresIn : Int
  deriving DecidableEq, Repr

/-- Go `TokenInfo` holds the access token and its expiration time. -/
structure TokenInfo where
  token : String
  expiry : Int
  deriving DecidableEq, Repr

/-- Go `TokenManager` state: the mutable `tokenInfo` field. -/
structure TokenManager where
  tokenInfo : TokenInfo
  deriving DecidableEq, Repr

/-- Outcome of the single HTTP POST of `GenerateToken`: a transport error
from `httpClient.Do`, or a response with a status code and the result of
decoding its body. -/
inductive HttpOutcome where
  | transportError (msg : String)
  | response (statusCode : Nat) (decoded : Except String TokenResponse)
  deriving Repr

/-- Method `GenerateToken`: on a transport error or a non-200 status or a decode
failure it returns the error without touching `tokenInfo`; on success it
overwrites the token and sets the expiry to `now + expiresIn`. -/
def GenerateToken (tm : TokenManager) (now : Int) (outcome : HttpOutcome) :
    Except String TokenManager :=
  match outcome with
  | HttpOutcome.transportError msg => Except.error msg
  | HttpOutcome.response statusCode decoded =>
    if statusCode ≠ 200 then
      Except.error ("failed to generate token: " ++ toString statusCode)
    else
      match decoded with
      | Except.error msg => Except.error msg
      | Except.ok tokenResp =>
        Except.ok
          { tokenInfo :=
              { token := tokenResp.accessToken
                expiry := now + tokenResp.expiresIn } }

/-- Method `GetToken`: refreshes when `time.Now().After(expiry)` holds (strictly
past expiry), otherwise returns the cached token.  The result is the
returned token (or the propagated error), the manager state after the
call, and whether a refresh (network call) was attempted. -/
def GetToken (tm : TokenManager) (now : Int) (outcome : HttpOutcome) :
    Except String String × TokenManager × Bool :=
  if tm.tokenInfo.expiry < now then
    match GenerateToken tm now outcome with
    | Except.error e => (Except.error e, tm, true)
    | Except.ok tm' => (Except.ok tm'.tokenInfo.token, tm', true)
  else
    (Except.ok tm.tokenInfo.token, tm, false)

/-- The maximum raw score of a batch, clamped below by `0` (the code's scan
starts at `0`): specification-side definition using the mathematical `max`. -/
def maxRawScore (scores : List NodeScore) : Int :=
  (scores.map (fun n => n.score)).foldl max 0

/-! ## Helper lemmas -/

/-- The code's running-maximum update agrees with the mathematical `max`. -/
theorem if_lt_eq_max {α : Type} [LinearOrder α] (a b : α) :
    (if a < b then b else a) = max a b := by
  rcases le_or_lt b a with h | h
  · rw [if_neg (not_lt.mpr h), max_eq_left h]
  · rw [if_pos h, max_eq_right h.le]

/-- A left fold that adds `f` of each element equals the starting value plus
the sum of the mapped list. -/
theorem foldl_add_map {α : Type} (f : α → ℝ) (l : List α) (a : ℝ) :
    l.foldl (fun acc em => acc + f em) a = a + (l.map f).sum := by
  induction l generalizing a with
  | nil => simp
  | cons e tl ih => simp [ih, add_assoc]

/-! ## Claim theorems -/

/-- Claim C1 (code bug): for a batch in which every raw score is `0`, the
maximum found by the scan is `0` and `NormalizeScore` evaluates
`node.Score * framework.MaxNodeScore / 0` — an integer division by zero,
which is a runtime panic in Go, not the defined all-equal result the spec
requires.  The embedding reports the panic as `none`. -/
theorem normalizeScore_allZero_divisionByZero :
    normalizeScore [⟨"node-a", 0⟩, ⟨"node-b", 0⟩, ⟨"node-c", 0⟩] = none := by
  decide

/-- Claim C6 counterexample: on the batch `[2, 3]` the code yields `66` for
the first node (truncating division), while `round(2 · 100 / 3) = 67`; so
the code does not compute `round(score · MAX / max)`. -/
theorem normalizeScore_not_round :
    normalizeScore [⟨"node-a", 2⟩, ⟨"node-b", 3⟩] =
      some [⟨"node-a", 66⟩, ⟨"node-b", 100⟩] ∧
    round ((2 * 100 : ℚ) / 3) = 67 :=
  ⟨by decide, by norm_num [round_eq]⟩

/-- Claim C6 (amended): for every batch whose maximum raw score is positive,
`NormalizeScore` rescales every score in place (same nodes, same order) to
the Go-truncating integer division `score · MAX / max` — the floor of
`score · MAX / max` for non-negative scores, not its rounding. -/
theorem normalizeScore_rescales (scores : List NodeScore)
    (h : 0 < maxRawScore scores) :
    normalizeScore scores =
      some (scores.map (fun n =>
        { n with score := (n.score * MaxNodeScore).tdiv (maxRawScore scores) })) := by
  have hfold : scores.foldl
      (fun acc node => if acc < node.score then node.score else acc) 0 =
      maxRawScore scores := by
    unfold maxRawScore
    rw [List.foldl_map]
    simp only [if_lt_eq_max]
  unfold normalizeScore
  rw [hfold, if_neg]
  rintro ⟨-, hzero⟩
  omega

/-- Claim C6 witness: the spec's example batch `[100, 50, 0]` with `MAX = 100`
normalizes to `[100, 50, 0]`. -/
theorem normalizeScore_rescales_witness :
    normalizeScore [⟨"node-a", 100⟩, ⟨"node-b", 50⟩, ⟨"node-c", 0⟩] =
      some [⟨"node-a", 100⟩, ⟨"node-b", 50⟩, ⟨"node-c", 0⟩] := by
  rw [normalizeScore_rescales _ (by decide)]
  decide

/-- Claim C7 counterexample: with `costWeight = 0` the cost term is `0` at
`totalCost = 0` and at `totalCost = 1`, so it is not strictly decreasing in
`totalCost` for every fixed `costWeight`. -/
theorem costWeightedScore_constant_at_zero_weight :
    calculateCostWeightedScore ⟨[], 0, 0⟩ 0 = 0 ∧
    calculateCostWeightedScore ⟨[], 0, 1⟩ 0 = 0 := by
  constructor <;> simp [calculateCostWeightedScore]

/-- Claim C7 (amended): for every fixed positive `costWeight` and every
`totalCost ≥ 0`, the cost term `costWeight / (1 + totalCost)` is strictly
decreasing in `totalCost` and bounded above by `costWeight`. -/
theorem costWeightedScore_strictAnti (p q : SustainabilityProfile) (w : ℝ)
    (hw : 0 < w) (h0 : 0 ≤ p.totalCost) (hpq : p.totalCost < q.totalCost) :
    calculateCostWeightedScore q w < calculateCostWeightedScore p w ∧
    calculateCostWeightedScore p w ≤ w := by
  unfold calculateCostWeightedScore
  constructor
  · exact div_lt_div_of_pos_left hw (by linarith) (by linarith)
  · exact div_le_self hw.le (by linarith)

/-- Claim C7 witness: with `costWeight = 1`, the cost term at `totalCost = 1`
is below the cost term at `totalCost = 0`, which is at most the weight. -/
theorem costWeightedScore_strictAnti_witness :
    calculateCostWeightedScore ⟨[], 0, 1⟩ 1 < calculateCostWeightedScore ⟨[], 0, 0⟩ 1 ∧
    calculateCostWeightedScore ⟨[], 0, 0⟩ 1 ≤ 1 :=
  costWeightedScore_strictAnti ⟨[], 0, 0⟩ ⟨[], 0, 1⟩ 1 (by norm_num) (le_refl 0)
    (by norm_num)

/-- Claim C8: the three serialized forms, with the filters built by
`NewFilter` exactly as in the spec examples: equality on the serial number,
`contains` on the make, and `in` with each member individually quoted. -/
theorem filter_serialization_examples :
    ((NewFilter EntitySerialNum Equals (GoValue.str "ABC123")).bind
        Filter.GetValue).map Prod.fst = some "entitySerialNum eq 'ABC123'" ∧
    ((NewFilter EntityMake Contains (GoValue.str "Dell")).bind
        Filter.GetValue).map Prod.fst = some "contains(entityMake, 'Dell')" ∧
    ((NewFilter EntityID InOp (GoValue.strList ["a", "b"])).bind
        Filter.GetValue).map Prod.fst = some "entityId in ('a', 'b')" :=
  ⟨by decide, by decide, by decide⟩

/-- Claim C9: when the aggregate usage-by-entity response has no items, the
node's sustainability score is `0` for every series input and every weights
configuration; the Go function returns only a `float64`, so no error can be
raised on this path. -/
theorem emptyItems_score_zero (dataPoints : List EmissionDataPoint)
    (weights : SustainabilityWeights) :
    calculateSustainabilityScore ⟨[]⟩ dataPoints weights = 0 :=
  rfl

/-- Claim C4 counterexample: `NewFilter` accepts a plain string value for the
`in` operator (the value is never validated), and `GetValue` on the
resulting filter hits the unchecked type assertion `f.Value.([]string)` — a
runtime panic, reported as `none` by the embedding. -/
theorem getValue_in_nonslice_panic :
    NewFilter EntityID InOp (GoValue.str "boom") =
      some ⟨EntityID, InOp, GoValue.str "boom"⟩ ∧
    Filter.GetValue ⟨EntityID, InOp, GoValue.str "boom"⟩ = none :=
  ⟨by decide, by decide⟩

/-- Claim C4 (amended): for every filter `NewFilter` successfully constructs,
`GetValue` returns a string provided that, when the operator is `in`, the
stored value is a string slice; an `in` filter with any other value panics
on the type assertion. -/
theorem getValue_total_on_valid_values (key op : String) (v : GoValue) (f : Filter)
    (hf : NewFilter key op v = some f)
    (hin : op = InOp → ∃ vs, v = GoValue.strList vs) :
    ∃ s f', Filter.GetValue f = some (s, f') := by
  unfold NewFilter at hf
  split at hf
  · exact absurd hf (by simp)
  · split at hf
    · exact absurd hf (by simp)
    · obtain rfl : f = ⟨key, op, v⟩ := by
        exact (Option.some.injEq _ _).mp hf.symm
      unfold Filter.GetValue
      by_cases hop : op = InOp
      · obtain ⟨vs, rfl⟩ := hin hop
        rw [if_pos hop]
        exact ⟨_, _, rfl⟩
      · rw [if_neg hop]
        by_cases hc : op = Contains
        · rw [if_pos hc]
          exact ⟨_, _, rfl⟩
        · rw [if_neg hc]
          exact ⟨_, _, rfl⟩

/-- Claim C4 witness: the equality filter on the serial number serializes
without a panic. -/
theorem getValue_total_on_valid_values_witness :
    ∃ s f', Filter.GetValue ⟨EntitySerialNum, Equals, GoValue.str "ABC123"⟩ =
      some (s, f') :=
  getValue_total_on_valid_values EntitySerialNum Equals (GoValue.str "ABC123")
    ⟨EntitySerialNum, Equals, GoValue.str "ABC123"⟩ (by decide)
    (fun h => absurd h (by decide))

/-- Claim C5: `GetToken` refreshes exactly when the stored expiry is strictly
in the past (`time.Now().After(expiry)`, which covers the zero-value initial
state `expiry = 0`); with a future (or current) expiry it returns the cached
token with no network call and an unchanged manager; when the refresh fails
the error propagates and the manager state is unchanged; and a non-200
status or a decode failure always makes the refresh fail. -/
theorem getToken_refresh_iff_expired (tm : TokenManager) (now : Int)
    (outcome : HttpOutcome) :
    ((GetToken tm now outcome).2.2 = true ↔ tm.tokenInfo.expiry < now) ∧
    (now ≤ tm.tokenInfo.expiry →
      GetToken tm now outcome = (Except.ok tm.tokenInfo.token, tm, false)) ∧
    (∀ e, tm.tokenInfo.expiry < now →
      GenerateToken tm now outcome = Except.error e →
      GetToken tm now outcome = (Except.error e, tm, true)) ∧
    (∀ statusCode decoded, statusCode ≠ 200 →
      GenerateToken tm now (HttpOutcome.response statusCode decoded) =
        Except.error ("failed to generate token: " ++ toString statusCode)) ∧
    (∀ msg, GenerateToken tm now (HttpOutcome.response 200 (Except.error msg)) =
      Except.error msg) := by
  refine ⟨?_, ?_, ?_, ?_, ?_⟩
  · unfold GetToken
    by_cases hexp : tm.tokenInfo.expiry < now
    · rw [if_pos hexp]
      cases GenerateToken tm now outcome <;> simpa using hexp
    · rw [if_neg hexp]
      simpa using hexp
  · intro hle
    unfold GetToken
    rw [if_neg (not_lt.mpr hle)]
  · intro e hexp herr
    unfold GetToken
    rw [if_pos hexp, herr]
  · intro statusCode decoded hne
    simp [GenerateToken, hne]
  · intro msg
    simp [GenerateToken]

/-- Claim C5 witness: with a cached token valid until time `10`, a call at
time `5` returns the cached token, performs no refresh, and leaves the
manager unchanged — even though the oracle would answer with a 500. -/
theorem getToken_refresh_iff_expired_witness :
    GetToken ⟨⟨"cached", 10⟩⟩ 5 (HttpOutcome.response 500 (Except.error "x")) =
      (Except.ok "cached", ⟨⟨"cached", 10⟩⟩, false) :=
  (getToken_refresh_iff_expired ⟨⟨"cached", 10⟩⟩ 5
    (HttpOutcome.response 500 (Except.error "x"))).2.1 (by decide)

/-- Quoting every member of a list lengthens its `", "`-join by exactly two
characters per member. -/
theorem joinSep_quoted_length (vs : List String) (hvs : vs ≠ []) :
    (joinSep ", " (vs.map (fun v => "'" ++ v ++ "'"))).length =
      (joinSep ", " vs).length + 2 * vs.length := by
  induction vs with
  | nil => exact absurd rfl hvs
  | cons v tl ih =>
    cases tl with
    | nil =>
      have h1 : ("'" : String).length = 1 := rfl
      simp [joinSep, String.length_append, h1]
      omega
    | cons v' tl' =>
      have h1 : ("'" : String).length = 1 := rfl
      have ihtl := ih (by simp)
      simp only [List.map_cons, joinSep, String.length_append, h1,
        List.length_cons] at ihtl ⊢
      omega

/-- Claim C10 counterexample: an `in` filter whose value is the empty string
slice serializes to `entityId in ()` and leaves the filter unchanged, so the
second successive `GetValue` call returns exactly the same string — the
claimed "two successive calls return different strings" fails there. -/
theorem getValue_in_empty_same_string :
    (Filter.GetValue ⟨EntityID, InOp, GoValue.strList []⟩).map Prod.fst =
      some "entityId in ()" ∧
    ((Filter.GetValue ⟨EntityID, InOp, GoValue.strList []⟩).bind
        (fun p => Filter.GetValue p.2)).map Prod.fst = some "entityId in ()" :=
  ⟨by decide, by decide⟩

/-- Claim C10 (amended): for every `in` filter whose stored value is a
non-empty string slice, `GetValue` rewrites the slice in place, wrapping
every member in an additional pair of single quotes, and a second `GetValue`
call on the resulting filter returns a different (longer) string with
doubly-quoted members. -/
theorem getValue_in_rewrites_slice (key : String) (vs : List String)
    (hvs : vs ≠ []) :
    ∃ s₁ f₁ s₂ f₂,
      Filter.GetValue ⟨key, InOp, GoValue.strList vs⟩ = some (s₁, f₁) ∧
      f₁.value = GoValue.strList (vs.map (fun v => "'" ++ v ++ "'")) ∧
      Filter.GetValue f₁ = some (s₂, f₂) ∧ s₁ ≠ s₂ := by
  have h1 : Filter.GetValue ⟨key, InOp, GoValue.strList vs⟩ =
      some (key ++ " in (" ++
          joinSep ", " (vs.map (fun v => "'" ++ v ++ "'")) ++ ")",
        ⟨key, InOp, GoValue.strList (vs.map (fun v => "'" ++ v ++ "'"))⟩) := by
    simp [Filter.GetValue, formatInValues]
  have h2 : Filter.GetValue
        ⟨key, InOp, GoValue.strList (vs.map (fun v => "'" ++ v ++ "'"))⟩ =
      some (key ++ " in (" ++
          joinSep ", "
            ((vs.map (fun v => "'" ++ v ++ "'")).map (fun v => "'" ++ v ++ "'")) ++ ")",
        ⟨key, InOp, GoValue.strList
          ((vs.map (fun v => "'" ++ v ++ "'")).map (fun v => "'" ++ v ++ "'"))⟩) := by
    simp [Filter.GetValue, formatInValues]
  refine ⟨_, _, _, _, h1, rfl, h2, ?_⟩
  intro heq
  have hlen := congrArg String.length heq
  have hquoted : vs.map (fun v => "'" ++ v ++ "'") ≠ [] := by
    simpa using hvs
  have e2 := joinSep_quoted_length (vs.map (fun v => "'" ++ v ++ "'")) hquoted
  have hnz : vs.length ≠ 0 := by
    simpa using hvs
  simp only [String.length_append, e2, List.length_map] at hlen
  omega

/-- Claim C10 witness: the `in` filter holding `["a", "b"]` is rewritten in
place and its two successive serializations differ. -/
theorem getValue_in_rewrites_slice_witness :
    ∃ s₁ f₁ s₂ f₂,
      Filter.GetValue ⟨"entityId", InOp, GoValue.strList ["a", "b"]⟩ =
        some (s₁, f₁) ∧
      f₁.value = GoValue.strList (["a", "b"].map (fun v => "'" ++ v ++ "'")) ∧
      Filter.GetValue f₁ = some (s₂, f₂) ∧ s₁ ≠ s₂ :=
  getValue_in_rewrites_slice "entityId" ["a", "b"] (by decide)

/-- Evaluation of the decay factor at a time difference of `d` hours: the
latest time `t + d` against a data point stamped `t` gives `Δh = d`. -/
theorem decayFactor_shift (c t r d : ℝ) :
    CalculateDecayFactor ⟨c, t⟩ ⟨t + d, r⟩ =
      if 0 ≤ d then Real.exp (-r * d) / (1 + Real.exp (-r * d)) else 1 := by
  simp only [CalculateDecayFactor, add_sub_cancel_left]
  split <;> norm_num

/-- The logistic-style ratio `e^x / (1 + e^x)` is positive. -/
theorem expRatio_pos (x : ℝ) : 0 < Real.exp x / (1 + Real.exp x) :=
  div_pos (Real.exp_pos x) (by positivity)

/-- For `x ≤ 0` the ratio `e^x / (1 + e^x)` is at most `1/2`. -/
theorem expRatio_le_half {x : ℝ} (hx : x ≤ 0) :
    Real.exp x / (1 + Real.exp x) ≤ 1 / 2 := by
  have h1 : Real.exp x ≤ 1 := Real.exp_le_one_iff.mpr hx
  have h2 : (0 : ℝ) < 1 + Real.exp x := by positivity
  rw [div_le_div_iff₀ h2 (by norm_num)]
  linarith

/-- The ratio `e^x / (1 + e^x)` is strictly increasing. -/
theorem expRatio_lt {x y : ℝ} (hxy : x < y) :
    Real.exp x / (1 + Real.exp x) < Real.exp y / (1 + Real.exp y) := by
  have hx := Real.exp_pos x
  have hy := Real.exp_pos y
  have hE : Real.exp x < Real.exp y := Real.exp_lt_exp.mpr hxy
  rw [div_lt_div_iff₀ (by positivity) (by positivity)]
  nlinarith

/-- The ratio `e^x / (1 + e^x)` is monotone. -/
theorem expRatio_le {x y : ℝ} (hxy : x ≤ y) :
    Real.exp x / (1 + Real.exp x) ≤ Real.exp y / (1 + Real.exp y) := by
  rcases eq_or_lt_of_le hxy with rfl | h
  · exact le_rfl
  · exact (expRatio_lt h).le

/-- Claim C3 counterexample: at decay rate `r = 0` the factor equals `1/2`
both at `Δh = 1` and at `Δh = 0`, so it is not strictly decreasing in `Δh`
for every `r ≥ 0`. -/
theorem calculateDecayFactor_constant_at_zero_rate :
    CalculateDecayFactor ⟨0, 0⟩ ⟨1, 0⟩ = 1 / 2 ∧
    CalculateDecayFactor ⟨0, 0⟩ ⟨0, 0⟩ = 1 / 2 := by
  constructor <;>
  · simp [CalculateDecayFactor, Real.exp_zero]
    norm_num

/-- Claim C3 (amended): for every decay rate `r ≥ 0` and time difference
`Δh ≥ 0` the decay factor lies in `(0, 1/2]` and equals exactly `1/2` at
`Δh = 0`; it is weakly decreasing in `Δh` for every `r ≥ 0` and strictly
decreasing for `r > 0` (at `r = 0` it is constant); and for `Δh < 0` it
equals exactly `1.0` (the defensive branch). -/
theorem calculateDecayFactor_props (c t r d d' : ℝ) (hr : 0 ≤ r) :
    (0 ≤ d → 0 < CalculateDecayFactor ⟨c, t⟩ ⟨t + d, r⟩ ∧
      CalculateDecayFactor ⟨c, t⟩ ⟨t + d, r⟩ ≤ 1 / 2) ∧
    CalculateDecayFactor ⟨c, t⟩ ⟨t + 0, r⟩ = 1 / 2 ∧
    (0 < r → 0 ≤ d → d < d' →
      CalculateDecayFactor ⟨c, t⟩ ⟨t + d', r⟩ <
        CalculateDecayFactor ⟨c, t⟩ ⟨t + d, r⟩) ∧
    (0 ≤ d → d ≤ d' →
      CalculateDecayFactor ⟨c, t⟩ ⟨t + d', r⟩ ≤
        CalculateDecayFactor ⟨c, t⟩ ⟨t + d, r⟩) ∧
    (d < 0 → CalculateDecayFactor ⟨c, t⟩ ⟨t + d, r⟩ = 1) := by
  refine ⟨?_, ?_, ?_, ?_, ?_⟩
  · intro hd
    rw [decayFactor_shift, if_pos hd]
    exact ⟨expRatio_pos _, expRatio_le_half (by nlinarith)⟩
  · rw [decayFactor_shift, if_pos le_rfl]
    simp [Real.exp_zero]
    norm_num
  · intro hrpos hd hdd'
    rw [decayFactor_shift, if_pos (hd.trans hdd'.le), decayFactor_shift, if_pos hd]
    exact expRatio_lt (by nlinarith)
  · intro hd hdd'
    rw [decayFactor_shift, if_pos (hd.trans hdd'), decayFactor_shift, if_pos hd]
    exact expRatio_le (by nlinarith)
  · intro hd
    rw [decayFactor_shift, if_neg (not_le.mpr hd)]

/-- Claim C3 witness: at rate `1` and `Δh = 0` the factor is exactly `1/2`. -/
theorem calculateDecayFactor_props_witness :
    CalculateDecayFactor ⟨0, 0⟩ ⟨0 + 0, 1⟩ = 1 / 2 :=
  (calculateDecayFactor_props 0 0 1 0 1 (by norm_num)).2.1

/-- Claim C2: `CalculateScore` equals
`co2DecayWeight · decayedSum + totalCo2Weight · totalCo2 + costWeight / (1 + totalCost)`
with `decayedSum` the sum over all emission points of `decayFactor_i · co2_i`
against the reference time (the maximum timestamp); and for a profile with
an empty emissions sequence the decay-weighted term is exactly `0` for every
weight and decay rate. -/
theorem calculateScore_formula :
    (∀ (data : SustainabilityProfile) (w : SustainabilityWeights),
      CalculateScore data w =
        w.co2DecayWeight * decayedSum data w.decayRate +
          w.totalCO2Weight * data.totalCo2 +
          w.costWeight / (1 + data.totalCost)) ∧
    (∀ (totalCo2 totalCost co2Weight decayRate : ℝ),
      calculateCO2WeightedScore ⟨[], totalCo2, totalCost⟩ co2Weight decayRate = 0) := by
  constructor
  · intro data w
    obtain ⟨ems, tco2, tcost⟩ := data
    unfold CalculateScore calculateTotalCO2WeightedScore calculateCostWeightedScore
    cases ems with
    | nil =>
      simp [calculateCO2WeightedScore, decayedSum]
    | cons e0 rest =>
      have hmax : (e0 :: rest).foldl
          (fun acc em => if acc < em.time then em.time else acc) e0.time =
          referenceTime (e0 :: rest) := by
        unfold referenceTime
        simp only [if_lt_eq_max, List.foldl_cons, max_self]
      unfold decayedSum
      simp only [calculateCO2WeightedScore, hmax]
      rw [foldl_add_map]
      ring
  · intro totalCo2 totalCost co2Weight decayRate
    rfl

end Gks
